import Mathlib

/-
Verification of the filtering-and-aggregation logic of the salary dashboard
(src/app.py) as a shallow embedding.

Conventions of the embedding:
* A pandas row is a `Record`; a column value that may be NaN is an `Option`
  (`none` = missing).  Salaries (`usd`) are embedded as rationals so that
  means are exact.
* A DataFrame is a `List Record`; `df[...bool mask...]` is `List.filter`;
  `Series.isin` is `optMem` (a NaN value is in no selection list, matching
  pandas), `Series.dropna().unique()` is `List.filterMap ∘ List.dedup`,
  `sorted(...)` / `sort_values` is `List.insertionSort`.
* `groupby(key)[...].agg(...)` with pandas defaults (sort=True,
  dropna=True) is `groupby`: rows whose key is `none` are dropped, the
  distinct keys are sorted, and the aggregate is applied to each key's rows
  in original order.  Grouping on several columns uses a tupled key that is
  `none` as soon as one component is missing, exactly like pandas dropna
  on a multi-key groupby.
* `.copy()` on a DataFrame is the identity here: lists are immutable values,
  which is precisely the "never mutates the Dataset" guarantee.
-/

set_option maxHeartbeats 1000000

namespace SalaryDashboard

/-- One row of the salary CSV (columns of src/app.py's DataFrame).
`none` models a missing (NaN) entry of the column. -/
structure Record where
  ano : Option ℤ
  senioridade : Option String
  contrato : Option String
  tamanho_empresa : Option String
  cargo : Option String
  usd : ℚ
  remoto : Option String
  residencia_iso3 : Option String
  residencia : Option String
deriving DecidableEq

/-- The four multiselect states of the sidebar (app.py lines 36-39). -/
structure Selection where
  anos : List ℤ
  senioridades : List String
  contratos : List String
  tamanhos : List String
deriving DecidableEq

/-- `Series.isin(sel)` applied to one cell: a missing value is a member of
no selection list. -/
def optMem {α : Type} [DecidableEq α] (o : Option α) (l : List α) : Bool :=
  match o with
  | none => false
  | some x => decide (x ∈ l)

/-- app.py lines 44-49: the conjunctive boolean-mask filter producing
`df_filtrado`. -/
def df_filtrado (df : List Record) (sel : Selection) : List Record :=
  df.filter (fun r =>
    optMem r.ano sel.anos &&
    optMem r.senioridade sel.senioridades &&
    optMem r.contrato sel.contratos &&
    optMem r.tamanho_empresa sel.tamanhos)

/-- app.py line 31: `sorted(df["ano"].dropna().unique().tolist())`. -/
def anos_disponiveis (df : List Record) : List ℤ :=
  List.insertionSort (· ≤ ·) (df.filterMap Record.ano).dedup

/-- app.py line 32. -/
def senioridades_disponiveis (df : List Record) : List String :=
  List.insertionSort (· ≤ ·) (df.filterMap Record.senioridade).dedup

/-- app.py line 33. -/
def contratos_disponiveis (df : List Record) : List String :=
  List.insertionSort (· ≤ ·) (df.filterMap Record.contrato).dedup

/-- app.py line 34. -/
def tamanhos_disponiveis (df : List Record) : List String :=
  List.insertionSort (· ≤ ·) (df.filterMap Record.tamanho_empresa).dedup

/-- app.py lines 36-39: each multiselect defaults to the full list of
distinct non-null observed values. -/
def defaultSelection (df : List Record) : Selection :=
  ⟨anos_disponiveis df, senioridades_disponiveis df,
   contratos_disponiveis df, tamanhos_disponiveis df⟩

/-- `Series.mean()` of a list of rationals. -/
def mean (l : List ℚ) : ℚ := l.sum / l.length

/-- `Series.max()`; the `[]` branch is never reached by app.py, which
guards every use by non-emptiness. -/
def listMax : List ℚ → ℚ
  | [] => 0
  | x :: xs => xs.foldl max x

/-- `Series.median()`: middle of the sorted values, or the mean of the two
middle ones for an even count. -/
def median (l : List ℚ) : ℚ :=
  let s := List.insertionSort (· ≤ ·) l
  if s.length % 2 = 1 then s.getD (s.length / 2) 0
  else (s.getD (s.length / 2 - 1) 0 + s.getD (s.length / 2) 0) / 2

/-- `grp["usd"].mean()` applied to the rows of one group. -/
def meanUsd (rows : List Record) : ℚ := mean (rows.map Record.usd)

/-- `grp["usd"].median()` applied to the rows of one group. -/
def medianUsd (rows : List Record) : ℚ := median (rows.map Record.usd)

/-- pandas `groupby(key).agg` with the default `sort=True, dropna=True`:
rows whose key is missing belong to no group, the distinct keys are sorted
by `le`, and `agg` sees each key's rows in their original order. -/
def groupby {κ β : Type} [DecidableEq κ] (le : κ → κ → Prop) [DecidableRel le]
    (key : Record → Option κ) (agg : List Record → β) (df : List Record) :
    List (κ × β) :=
  (List.insertionSort le (df.filterMap key).dedup).map
    (fun k => (k, agg (df.filter (fun r => key r = some k))))

/-- Lexicographic order on string pairs, for two-column group keys. -/
def strPairLe (a b : String × String) : Prop :=
  a.1 < b.1 ∨ (a.1 = b.1 ∧ a.2 ≤ b.2)

instance : DecidableRel strPairLe := fun a b => by
  unfold strPairLe; infer_instance

/-- Lexicographic order on (year, string) pairs. -/
def intStrPairLe (a b : ℤ × String) : Prop :=
  a.1 < b.1 ∨ (a.1 = b.1 ∧ a.2 ≤ b.2)

instance : DecidableRel intStrPairLe := fun a b => by
  unfold intStrPairLe; infer_instance

/-- app.py lines 94-96 and 192-193: `df_filtrado.groupby("cargo")["usd"].mean()`. -/
def gbCargoMean (df : List Record) : List (String × ℚ) :=
  groupby (· ≤ ·) Record.cargo meanUsd df

/-- Ascending order by the mean-salary column (`sort_values(ascending=True)`). -/
def byUsdAsc (a b : String × ℚ) : Prop := a.2 ≤ b.2

instance : DecidableRel byUsdAsc := fun a b => by
  unfold byUsdAsc; infer_instance

instance : IsTotal (String × ℚ) byUsdAsc := ⟨fun a b => le_total a.2 b.2⟩

instance : IsTrans (String × ℚ) byUsdAsc :=
  ⟨fun _ _ _ hab hbc => le_trans hab hbc⟩

/-- Descending order by the mean-salary column (`nlargest`). -/
def byUsdDesc (a b : String × ℚ) : Prop := b.2 ≤ a.2

instance : DecidableRel byUsdDesc := fun a b => by
  unfold byUsdDesc; infer_instance

instance : IsTotal (String × ℚ) byUsdDesc := ⟨fun a b => le_total b.2 a.2⟩

instance : IsTrans (String × ℚ) byUsdDesc :=
  ⟨fun _ _ _ hab hbc => le_trans hbc hab⟩

/-- app.py lines 94-100: group by title, mean salary, `nlargest(10)`
(stable descending sort, keep the first ten), then
`sort_values(ascending=True)` for display. -/
def top_cargos (df : List Record) : List (String × ℚ) :=
  List.insertionSort byUsdAsc
    ((List.insertionSort byUsdDesc (gbCargoMean df)).take 10)

/-- Two-column group key `["senioridade", "contrato"]`: missing in either
column makes the whole key missing (pandas drops such rows). -/
def senContratoKey (r : Record) : Option (String × String) :=
  match r.senioridade, r.contrato with
  | some s, some c => some (s, c)
  | _, _ => none

/-- app.py lines 268-271: `groupby(["senioridade","contrato"])["usd"].mean()`,
the grouped table behind the heatmap. -/
def heat_means (df : List Record) : List ((String × String) × ℚ) :=
  groupby strPairLe senContratoKey meanUsd df

/-- app.py line 272: `.pivot(index="senioridade", columns="contrato",
values="usd")` read at cell (s, c); `none` is the NaN (empty) cell of the
pivot for a combination absent from the grouped table. -/
def piv (df : List Record) (s c : String) : Option ℚ :=
  (heat_means df).lookup (s, c)

/-- app.py line 152: `df_filtrado[df_filtrado["cargo"] == "Data Scientist"]`. -/
def df_ds (df : List Record) : List Record :=
  df.filter (fun r => r.cargo = some "Data Scientist")

/-- app.py lines 151-167: the per-country mean for the fixed title;
`none` is the "no data" branch (`st.info`) taken when no record of the
FilteredView has that title. -/
def media_ds_pais (df : List Record) : Option (List (String × ℚ)) :=
  if df_ds df = [] then none
  else some (groupby (· ≤ ·) Record.residencia_iso3 meanUsd (df_ds df))

/-- `Series.mode()` of the `cargo` column: the non-null values attaining
the maximal count, in sorted order (pandas mode is sorted; NaN is dropped). -/
def modeCargo (df : List Record) : List String :=
  let vs := df.filterMap Record.cargo
  let ks := List.insertionSort (· ≤ ·) vs.dedup
  ks.filter (fun k => vs.count k = (ks.map (fun j => vs.count j)).foldr max 0)

/-- The four KPI values of app.py lines 62-75. -/
structure Metrics where
  salario_medio : ℚ
  salario_maximo : ℚ
  total_registros : ℕ
  cargo_mais_frequente : String
deriving DecidableEq

/-- app.py lines 62-75: the KPI block, with the documented zero/"N/D"
fallbacks on an empty FilteredView. -/
def metrics (v : List Record) : Metrics :=
  if v.isEmpty then
    { salario_medio := 0
      salario_maximo := 0
      total_registros := 0
      cargo_mais_frequente := "N/D" }
  else
    { salario_medio := mean (v.map Record.usd)
      salario_maximo := listMax (v.map Record.usd)
      total_registros := v.length
      cargo_mais_frequente :=
        match modeCargo v with
        | [] => "N/D"
        | c :: _ => c }

/-- app.py line 227: the treemap's country label column is `residencia`
when that column exists in the frame, else the fallback `residencia_iso3`. -/
def countryLabel (hasResidencia : Bool) (r : Record) : Option String :=
  if hasResidencia then r.residencia else r.residencia_iso3

/-- Two-column group key `[coluna_pais, "cargo"]` of the treemap. -/
def treemapKey (hasResidencia : Bool) (r : Record) : Option (String × String) :=
  match countryLabel hasResidencia r, r.cargo with
  | some p, some c => some (p, c)
  | _, _ => none

/-- app.py lines 228-233: `groupby([coluna_pais, "cargo"])["usd"].mean()`. -/
def df_treemap (hasResidencia : Bool) (df : List Record) :
    List ((String × String) × ℚ) :=
  groupby strPairLe (treemapKey hasResidencia) meanUsd df

/-- app.py lines 248-253: `groupby(["senioridade","contrato"]).size()`. -/
def df_sun (df : List Record) : List ((String × String) × ℕ) :=
  groupby strPairLe senContratoKey List.length df

/-- `df_filtrado['cargo'].value_counts()`: count of each distinct non-null
title (NaN dropped by pandas' default `dropna=True`). -/
def cargo_counts (df : List Record) : List (String × ℕ) :=
  ((df.filterMap Record.cargo).dedup).map
    (fun k => (k, (df.filterMap Record.cargo).count k))

/-- Descending order by the count column. -/
def byCountDesc (a b : String × ℕ) : Prop := b.2 ≤ a.2

instance : DecidableRel byCountDesc := fun a b => by
  unfold byCountDesc; infer_instance

/-- app.py lines 288-292: the five titles with the largest record counts
(`value_counts().nlargest(5).index.tolist()`). -/
def top5_cargos (df : List Record) : List String :=
  ((List.insertionSort byCountDesc (cargo_counts df)).take 5).map Prod.fst

/-- Two-column group key `["ano", "cargo"]`. -/
def anoCargoKey (r : Record) : Option (ℤ × String) :=
  match r.ano, r.cargo with
  | some a, some c => some (a, c)
  | _, _ => none

/-- app.py lines 293-297: restrict to the top-5 titles, then
`groupby(["ano","cargo"])["usd"].median()`. -/
def df_linha (df : List Record) : List ((ℤ × String) × ℚ) :=
  groupby intStrPairLe anoCargoKey medianUsd
    (df.filter (fun r => optMem r.cargo (top5_cargos df)))

/-- Two-column group key `["ano", "residencia_iso3"]`. -/
def anoIso3Key (r : Record) : Option (ℤ × String) :=
  match r.ano, r.residencia_iso3 with
  | some a, some c => some (a, c)
  | _, _ => none

/-- Order of `sort_values(["ano", "residencia_iso3"])` on the grouped rows. -/
def byAnoIso3 (a b : (ℤ × String) × ℚ) : Prop := intStrPairLe a.1 b.1

instance : DecidableRel byAnoIso3 := fun a b => by
  unfold byAnoIso3; infer_instance

/-- app.py lines 318-324: restrict to the selected title, then
`groupby(["ano","residencia_iso3"])["usd"].mean()` followed by
`sort_values(["ano","residencia_iso3"])`. -/
def df_anim (cargo_sel : String) (df : List Record) :
    List ((ℤ × String) × ℚ) :=
  List.insertionSort byAnoIso3
    (groupby intStrPairLe anoIso3Key meanUsd
      (df.filter (fun r => r.cargo = some cargo_sel)))

/-- First record of the specification's three-record example dataset. -/
def rec1 : Record :=
  { ano := some 2023, senioridade := some "senior", contrato := some "FT",
    tamanho_empresa := some "M", cargo := some "Data Scientist",
    usd := 100000, remoto := some "remote",
    residencia_iso3 := some "USA", residencia := some "United States" }

/-- Second record of the example dataset. -/
def rec2 : Record :=
  { ano := some 2023, senioridade := some "senior", contrato := some "FT",
    tamanho_empresa := some "M", cargo := some "Data Scientist",
    usd := 200000, remoto := some "remote",
    residencia_iso3 := some "USA", residencia := some "United States" }

/-- Third record of the example dataset. -/
def rec3 : Record :=
  { ano := some 2024, senioridade := some "senior", contrato := some "FT",
    tamanho_empresa := some "M", cargo := some "Analyst",
    usd := 50000, remoto := some "remote",
    residencia_iso3 := some "BRA", residencia := some "Brazil" }

/-- The specification's example dataset. -/
def exampleDf : List Record := [rec1, rec2, rec3]

/-- `optMem` agrees with selection-set membership phrased as an existential. -/
theorem optMem_eq_decide {α : Type} [DecidableEq α] (o : Option α) (l : List α) :
    optMem o l = decide (∃ a ∈ l, o = some a) := by
  cases o with
  | none => simp [optMem]
  | some x => simp [optMem]

/-- No value passes an empty selection list. -/
theorem optMem_nil {α : Type} [DecidableEq α] (o : Option α) :
    optMem o ([] : List α) = false := by
  cases o <;> simp [optMem]

/-- `optMem` in propositional form. -/
theorem optMem_true_iff {α : Type} [DecidableEq α] (o : Option α) (l : List α) :
    optMem o l = true ↔ ∃ a ∈ l, o = some a := by
  rw [optMem_eq_decide]; simp

/-- Membership characterization of `groupby`: the grouped table has one row
per distinct non-missing key of `df`, carrying the aggregate of exactly the
rows with that key. -/
theorem mem_groupby {κ β : Type} [DecidableEq κ] (le : κ → κ → Prop)
    [DecidableRel le] (key : Record → Option κ) (agg : List Record → β)
    (df : List Record) (k : κ) (v : β) :
    (k, v) ∈ groupby le key agg df ↔
      (∃ r ∈ df, key r = some k) ∧
        v = agg (df.filter (fun r => key r = some k)) := by
  unfold groupby
  simp only [List.mem_map, List.mem_insertionSort, List.mem_dedup,
    List.mem_filterMap, Prod.mk.injEq]
  constructor
  · rintro ⟨a, ⟨r, hr, hk⟩, rfl, rfl⟩
    exact ⟨⟨r, hr, hk⟩, rfl⟩
  · rintro ⟨⟨r, hr, hk⟩, rfl⟩
    exact ⟨k, ⟨r, hr, hk⟩, rfl, rfl⟩

/-- The key column of a `groupby` result is the sorted list of distinct keys. -/
theorem groupby_map_fst {κ β : Type} [DecidableEq κ] (le : κ → κ → Prop)
    [DecidableRel le] (key : Record → Option κ) (agg : List Record → β)
    (df : List Record) :
    (groupby le key agg df).map Prod.fst =
      List.insertionSort le (df.filterMap key).dedup := by
  unfold groupby
  simp [List.map_map, Function.comp_def]

/-- A `groupby` result never repeats a group key. -/
theorem groupby_keys_nodup {κ β : Type} [DecidableEq κ] (le : κ → κ → Prop)
    [DecidableRel le] (key : Record → Option κ) (agg : List Record → β)
    (df : List Record) :
    ((groupby le key agg df).map Prod.fst).Nodup := by
  rw [groupby_map_fst]
  exact ((List.perm_insertionSort le _).nodup_iff).mpr (List.nodup_dedup _)

/-- A `groupby` result has one row per distinct non-missing key value. -/
theorem groupby_length {κ β : Type} [DecidableEq κ] (le : κ → κ → Prop)
    [DecidableRel le] (key : Record → Option κ) (agg : List Record → β)
    (df : List Record) :
    (groupby le key agg df).length = (df.filterMap key).dedup.length := by
  unfold groupby
  rw [List.length_map]
  exact (List.perm_insertionSort le _).length_eq

/-- `List.lookup` finds the value of a present key when keys are unrepeated. -/
theorem lookup_eq_some_of_mem {α β : Type} [BEq α] [LawfulBEq α]
    (l : List (α × β)) (k : α) (v : β)
    (hn : (l.map Prod.fst).Nodup) (hm : (k, v) ∈ l) :
    l.lookup k = some v := by
  induction l with
  | nil => cases hm
  | cons p rest ih =>
    obtain ⟨a, b⟩ := p
    rw [List.map_cons, List.nodup_cons] at hn
    rcases List.mem_cons.mp hm with heq | htl
    · obtain ⟨rfl, rfl⟩ := Prod.mk.injEq .. ▸ heq
      simp [List.lookup]
    · have hka : k ≠ a := by
        rintro rfl
        exact hn.1 (List.mem_map.mpr ⟨(k, v), htl, rfl⟩)
      have hfalse : (k == a) = false := beq_eq_false_iff_ne.mpr hka
      simp only [List.lookup, hfalse]
      exact ih hn.2 htl

/-- `List.lookup` misses every absent key. -/
theorem lookup_eq_none_of_not_mem {α β : Type} [BEq α] [LawfulBEq α]
    (l : List (α × β)) (k : α) (h : k ∉ l.map Prod.fst) :
    l.lookup k = none := by
  induction l with
  | nil => rfl
  | cons p rest ih =>
    obtain ⟨a, b⟩ := p
    rw [List.map_cons, List.mem_cons] at h
    push_neg at h
    have hfalse : (k == a) = false := beq_eq_false_iff_ne.mpr h.1
    simp only [List.lookup, hfalse]
    exact ih h.2

/-- The two-column heatmap key decomposes into its column constraints. -/
theorem senContratoKey_eq_some (r : Record) (s c : String) :
    senContratoKey r = some (s, c) ↔
      r.senioridade = some s ∧ r.contrato = some c := by
  unfold senContratoKey
  cases hs : r.senioridade <;> cases hc : r.contrato <;> simp

/-- The treemap key decomposes into its column constraints. -/
theorem treemapKey_eq_some (hasR : Bool) (r : Record) (p c : String) :
    treemapKey hasR r = some (p, c) ↔
      countryLabel hasR r = some p ∧ r.cargo = some c := by
  unfold treemapKey
  cases hs : countryLabel hasR r <;> cases hc : r.cargo <;> simp

/-- The (year, title) key decomposes into its column constraints. -/
theorem anoCargoKey_eq_some (r : Record) (a : ℤ) (c : String) :
    anoCargoKey r = some (a, c) ↔ r.ano = some a ∧ r.cargo = some c := by
  unfold anoCargoKey
  cases ha : r.ano <;> cases hc : r.cargo <;> simp

/-- The (year, country-code) key decomposes into its column constraints. -/
theorem anoIso3Key_eq_some (r : Record) (a : ℤ) (c : String) :
    anoIso3Key r = some (a, c) ↔
      r.ano = some a ∧ r.residencia_iso3 = some c := by
  unfold anoIso3Key
  cases ha : r.ano <;> cases hc : r.residencia_iso3 <;> simp

/-- A value observed on a row of `df` is in the sorted distinct-value list
built from `df`. -/
theorem mem_sorted_dedup {α : Type} [DecidableEq α] (le : α → α → Prop)
    [DecidableRel le] (f : Record → Option α) {df : List Record} {r : Record}
    {a : α} (hr : r ∈ df) (ha : f r = some a) :
    a ∈ List.insertionSort le (df.filterMap f).dedup := by
  rw [List.mem_insertionSort, List.mem_dedup]
  exact List.mem_filterMap.mpr ⟨r, hr, ha⟩

/-- A record like `rec1` but with a missing year, for exhibiting a record
that the default selection cannot retain. -/
def recNoYear : Record := { rec1 with ano := none }

/-- C1: `df_filtrado` is exactly the sub-sequence of dataset records whose
year, seniority, contract and company-size values are members of the
corresponding selection sets (conjunctive AND); it preserves the original
record order (it is a sublist of the dataset, and the dataset — a list
value — is never mutated); and an empty selection set in any one of the
four dimensions yields an empty FilteredView. -/
theorem C1_df_filtrado_exact_subsequence :
    (∀ (df : List Record) (sel : Selection),
      df_filtrado df sel = df.filter (fun r =>
        decide (∃ a ∈ sel.anos, r.ano = some a) &&
        decide (∃ s ∈ sel.senioridades, r.senioridade = some s) &&
        decide (∃ c ∈ sel.contratos, r.contrato = some c) &&
        decide (∃ t ∈ sel.tamanhos, r.tamanho_empresa = some t))) ∧
    (∀ (df : List Record) (sel : Selection),
      (df_filtrado df sel).Sublist df) ∧
    (∀ (df : List Record) (a : List ℤ) (b c d : List String),
      df_filtrado df ⟨[], b, c, d⟩ = [] ∧
      df_filtrado df ⟨a, [], c, d⟩ = [] ∧
      df_filtrado df ⟨a, b, [], d⟩ = [] ∧
      df_filtrado df ⟨a, b, c, []⟩ = []) := by
  refine ⟨?_, ?_, ?_⟩
  · intro df sel
    unfold df_filtrado
    apply List.filter_congr
    intro r _
    rw [optMem_eq_decide, optMem_eq_decide, optMem_eq_decide, optMem_eq_decide]
  · intro df sel
    exact List.filter_sublist df
  · intro df a b c d
    refine ⟨?_, ?_, ?_, ?_⟩ <;> simp [df_filtrado, optMem_nil]

/-- C5: on an empty FilteredView every KPI takes its documented fallback:
mean salary 0, max salary 0, record count 0, most frequent title "N/D";
`metrics` is a total function, so no exception propagates. -/
theorem C5_metrics_empty_fallback :
    metrics [] = { salario_medio := 0, salario_maximo := 0,
                   total_registros := 0, cargo_mais_frequente := "N/D" } := rfl

/-- C6: filtering is idempotent — filtering an already-filtered view by the
same selection yields exactly the same result as filtering once. -/
theorem C6_df_filtrado_idempotent :
    ∀ (df : List Record) (sel : Selection),
      df_filtrado (df_filtrado df sel) sel = df_filtrado df sel := by
  intro df sel
  unfold df_filtrado
  rw [List.filter_filter]
  exact List.filter_congr (fun a _ => Bool.and_self _)

/-- C9: under the default selection (all observed distinct non-null values
of each of the four columns), a record is retained iff it is in the dataset
and all four of its filter-dimension values are present (non-NaN); hence a
record missing any of the four never appears, and the default FilteredView
can be a strict subset of the Dataset. -/
theorem C9_default_selection_excludes_missing :
    (∀ (df : List Record) (r : Record),
        r ∈ df_filtrado df (defaultSelection df) ↔
          r ∈ df ∧ r.ano.isSome ∧ r.senioridade.isSome ∧
            r.contrato.isSome ∧ r.tamanho_empresa.isSome) ∧
    (∃ df : List Record, df_filtrado df (defaultSelection df) ≠ df) := by
  constructor
  · intro df r
    unfold df_filtrado
    rw [List.mem_filter]
    constructor
    · rintro ⟨hr, hp⟩
      simp only [Bool.and_eq_true] at hp
      obtain ⟨⟨⟨h1, h2⟩, h3⟩, h4⟩ := hp
      obtain ⟨a1, _, e1⟩ := (optMem_true_iff _ _).mp h1
      obtain ⟨a2, _, e2⟩ := (optMem_true_iff _ _).mp h2
      obtain ⟨a3, _, e3⟩ := (optMem_true_iff _ _).mp h3
      obtain ⟨a4, _, e4⟩ := (optMem_true_iff _ _).mp h4
      exact ⟨hr, by rw [e1]; rfl, by rw [e2]; rfl, by rw [e3]; rfl,
        by rw [e4]; rfl⟩
    · rintro ⟨hr, h1, h2, h3, h4⟩
      obtain ⟨a1, e1⟩ := Option.isSome_iff_exists.mp h1
      obtain ⟨a2, e2⟩ := Option.isSome_iff_exists.mp h2
      obtain ⟨a3, e3⟩ := Option.isSome_iff_exists.mp h3
      obtain ⟨a4, e4⟩ := Option.isSome_iff_exists.mp h4
      refine ⟨hr, ?_⟩
      simp only [Bool.and_eq_true]
      refine ⟨⟨⟨?_, ?_⟩, ?_⟩, ?_⟩ <;> rw [optMem_true_iff]
      · exact ⟨a1, mem_sorted_dedup _ _ hr e1, e1⟩
      · exact ⟨a2, mem_sorted_dedup _ _ hr e2, e2⟩
      · exact ⟨a3, mem_sorted_dedup _ _ hr e3, e3⟩
      · exact ⟨a4, mem_sorted_dedup _ _ hr e4, e4⟩
  · exact ⟨[recNoYear], by decide⟩

/-- C2: the top-10-by-mean-salary pipeline groups the FilteredView by job
title (one row per distinct title), keeps at most 10 rows — exactly
`min 10 #titles` — with unrepeated titles, each kept row carrying the exact
mean salary of its title; the kept rows are re-sorted ascending by mean for
display, and every group left out has a mean no larger than any kept one. -/
theorem C2_top_cargos_top10_by_mean :
    ∀ df : List Record,
      (gbCargoMean df).length = (df.filterMap Record.cargo).dedup.length ∧
      (top_cargos df).length = min 10 (gbCargoMean df).length ∧
      ((top_cargos df).map Prod.fst).Nodup ∧
      List.Sorted byUsdAsc (top_cargos df) ∧
      (∀ p ∈ top_cargos df,
        (∃ r ∈ df, r.cargo = some p.1) ∧
          p.2 = meanUsd (df.filter (fun r => r.cargo = some p.1))) ∧
      (∀ p ∈ top_cargos df, ∀ q ∈ gbCargoMean df,
        q.1 ∉ (top_cargos df).map Prod.fst → q.2 ≤ p.2) := by
  intro df
  have hchar : ∀ (k : String) (v : ℚ), (k, v) ∈ gbCargoMean df ↔
      (∃ r ∈ df, r.cargo = some k) ∧
        v = meanUsd (df.filter (fun r => r.cargo = some k)) :=
    fun k v => mem_groupby (· ≤ ·) Record.cargo meanUsd df k v
  have hperm_desc : (List.insertionSort byUsdDesc (gbCargoMean df)).Perm (gbCargoMean df) :=
    List.perm_insertionSort _ _
  have hsorted_desc :
      List.Sorted byUsdDesc (List.insertionSort byUsdDesc (gbCargoMean df)) :=
    List.sorted_insertionSort _ _
  have hperm_top :
      (top_cargos df).Perm ((List.insertionSort byUsdDesc (gbCargoMean df)).take 10) := by
    unfold top_cargos
    exact List.perm_insertionSort _ _
  have hmem_gb : ∀ p ∈ top_cargos df, p ∈ gbCargoMean df := by
    intro p hp
    exact hperm_desc.mem_iff.mp
      (List.take_subset 10 _ (hperm_top.mem_iff.mp hp))
  refine ⟨?_, ?_, ?_, ?_, ?_, ?_⟩
  · exact groupby_length (· ≤ ·) Record.cargo meanUsd df
  · rw [hperm_top.length_eq, List.length_take, hperm_desc.length_eq]
  · have hgbkeys : ((gbCargoMean df).map Prod.fst).Nodup :=
      groupby_keys_nodup (· ≤ ·) Record.cargo meanUsd df
    have hdesckeys :
        ((List.insertionSort byUsdDesc (gbCargoMean df)).map Prod.fst).Nodup :=
      (hperm_desc.map Prod.fst).nodup_iff.mpr hgbkeys
    have hkeptkeys :
        (((List.insertionSort byUsdDesc (gbCargoMean df)).take 10).map
          Prod.fst).Nodup := by
      rw [List.map_take]
      exact (List.take_sublist 10 _).nodup hdesckeys
    exact (hperm_top.map Prod.fst).nodup_iff.mpr hkeptkeys
  · unfold top_cargos
    exact List.sorted_insertionSort _ _
  · intro p hp
    obtain ⟨k, v⟩ := p
    exact (hchar k v).mp (hmem_gb _ hp)
  · intro p hp q hq hnot
    have hqdesc : q ∈ List.insertionSort byUsdDesc (gbCargoMean df) :=
      hperm_desc.mem_iff.mpr hq
    have hsplit : q ∈ (List.insertionSort byUsdDesc (gbCargoMean df)).take 10 ∨
        q ∈ (List.insertionSort byUsdDesc (gbCargoMean df)).drop 10 := by
      rw [← List.mem_append, List.take_append_drop]
      exact hqdesc
    rcases hsplit with hkept | hdropped
    · exact absurd
        ((hperm_top.map Prod.fst).mem_iff.mpr
          (List.mem_map_of_mem Prod.fst hkept))
        hnot
    · exact hsorted_desc.rel_of_mem_take_of_mem_drop
        (hperm_top.mem_iff.mp hp) hdropped

/-- C3: the heatmap pipeline groups by (seniority, contract), computes the
mean salary per pair, and pivots; the pivot cell of every pair present in
the FilteredView is exactly the mean of that pair's salary values, and the
cell of every absent (seniority, contract) combination is empty (`none`),
not 0. -/
theorem C3_piv_heatmap_cells :
    ∀ (df : List Record) (s c : String),
      piv df s c =
        if ∃ r ∈ df, r.senioridade = some s ∧ r.contrato = some c
        then some (meanUsd (df.filter
          (fun r => decide (r.senioridade = some s ∧ r.contrato = some c))))
        else none := by
  intro df s c
  by_cases h : ∃ r ∈ df, r.senioridade = some s ∧ r.contrato = some c
  · rw [if_pos h]
    have hmem : ((s, c),
        meanUsd (df.filter (fun r => senContratoKey r = some (s, c)))) ∈
          heat_means df := by
      apply (mem_groupby strPairLe senContratoKey meanUsd df (s, c) _).mpr
      refine ⟨?_, rfl⟩
      obtain ⟨r, hr, hs, hc⟩ := h
      exact ⟨r, hr, (senContratoKey_eq_some r s c).mpr ⟨hs, hc⟩⟩
    have hn : ((heat_means df).map Prod.fst).Nodup :=
      groupby_keys_nodup _ _ _ _
    unfold piv
    rw [lookup_eq_some_of_mem _ _ _ hn hmem]
    have hpred : df.filter (fun r => senContratoKey r = some (s, c)) =
        df.filter (fun r =>
          decide (r.senioridade = some s ∧ r.contrato = some c)) :=
      List.filter_congr
        (fun r _ => decide_eq_decide.mpr (senContratoKey_eq_some r s c))
    rw [hpred]
  · rw [if_neg h]
    unfold piv
    apply lookup_eq_none_of_not_mem
    intro hmemkeys
    obtain ⟨⟨k, v⟩, hkv, hfst⟩ := List.mem_map.mp hmemkeys
    simp only at hfst
    subst hfst
    obtain ⟨⟨r, hr, hkey⟩, _⟩ :=
      (mem_groupby strPairLe senContratoKey meanUsd df _ _).mp hkv
    obtain ⟨hs, hc⟩ := (senContratoKey_eq_some r s c).mp hkey
    exact h ⟨r, hr, hs, hc⟩

/-- The country label of the treemap is the `residencia` column when that
column is present. -/
theorem countryLabel_true (r : Record) : countryLabel true r = r.residencia := rfl

/-- The country label of the treemap falls back to `residencia_iso3` when
the `residencia` column is absent. -/
theorem countryLabel_false (r : Record) :
    countryLabel false r = r.residencia_iso3 := rfl

/-- Membership characterization of the treemap table, in terms of the
chosen country-label column. -/
theorem mem_df_treemap (hasR : Bool) (df : List Record) (p c : String) (v : ℚ) :
    ((p, c), v) ∈ df_treemap hasR df ↔
      (∃ r ∈ df, countryLabel hasR r = some p ∧ r.cargo = some c) ∧
        v = meanUsd (df.filter
          (fun r => decide (countryLabel hasR r = some p ∧ r.cargo = some c))) := by
  have hfilter : df.filter (fun r => treemapKey hasR r = some (p, c)) =
      df.filter (fun r =>
        decide (countryLabel hasR r = some p ∧ r.cargo = some c)) :=
    List.filter_congr
      (fun r _ => decide_eq_decide.mpr (treemapKey_eq_some hasR r p c))
  rw [show df_treemap hasR df = groupby strPairLe (treemapKey hasR) meanUsd df
      from rfl,
    mem_groupby]
  constructor
  · rintro ⟨⟨r, hr, hk⟩, rfl⟩
    obtain ⟨h1, h2⟩ := (treemapKey_eq_some hasR r p c).mp hk
    exact ⟨⟨r, hr, h1, h2⟩, congrArg meanUsd hfilter⟩
  · rintro ⟨⟨r, hr, h1, h2⟩, rfl⟩
    exact ⟨⟨r, hr, (treemapKey_eq_some hasR r p c).mpr ⟨h1, h2⟩⟩,
      congrArg meanUsd hfilter.symm⟩

/-- C8: the country×title treemap table groups by (country label, title)
and carries the exact mean salary per pair, where the country label is the
human-readable `residencia` column when that column is present and the ISO3
`residencia_iso3` column when it is absent. -/
theorem C8_treemap_country_label_fallback :
    ∀ df : List Record,
      (∀ (p c : String) (v : ℚ),
        ((p, c), v) ∈ df_treemap true df ↔
          (∃ r ∈ df, r.residencia = some p ∧ r.cargo = some c) ∧
            v = meanUsd (df.filter
              (fun r => decide (r.residencia = some p ∧ r.cargo = some c)))) ∧
      (∀ (p c : String) (v : ℚ),
        ((p, c), v) ∈ df_treemap false df ↔
          (∃ r ∈ df, r.residencia_iso3 = some p ∧ r.cargo = some c) ∧
            v = meanUsd (df.filter
              (fun r =>
                decide (r.residencia_iso3 = some p ∧ r.cargo = some c)))) := by
  intro df
  constructor
  · intro p c v
    simpa only [countryLabel_true] using mem_df_treemap true df p c v
  · intro p c v
    simpa only [countryLabel_false] using mem_df_treemap false df p c v

/-- C4: the per-country pipeline for the fixed title "Data Scientist" first
restricts the FilteredView to that exact title; when no record has the
title its output is the "no data" signal `none` rather than an error, and
otherwise it groups the restricted rows by residence country code with the
exact mean salary per country. On the specification's three-record example
(all records selected by the default filter), it yields exactly
{"USA": 150000}. -/
theorem C4_media_ds_pais_no_data_and_example :
    (∀ df : List Record, df_ds df = [] → media_ds_pais df = none) ∧
    (∀ (df : List Record) (g : List (String × ℚ)),
      media_ds_pais df = some g →
        ∀ (k : String) (v : ℚ),
          (k, v) ∈ g ↔
            (∃ r ∈ df, r.cargo = some "Data Scientist" ∧
              r.residencia_iso3 = some k) ∧
              v = meanUsd ((df_ds df).filter
                (fun r => r.residencia_iso3 = some k))) ∧
    df_filtrado exampleDf (defaultSelection exampleDf) = exampleDf ∧
    media_ds_pais exampleDf = some [("USA", 150000)] := by
  refine ⟨?_, ?_, ?_, ?_⟩
  · intro df h
    unfold media_ds_pais
    rw [if_pos h]
  · intro df g hg k v
    unfold media_ds_pais at hg
    by_cases h : df_ds df = []
    · rw [if_pos h] at hg; cases hg
    · rw [if_neg h] at hg
      injection hg with hg
      subst hg
      rw [mem_groupby]
      constructor
      · rintro ⟨⟨r, hr, hk⟩, rfl⟩
        have hr' := List.mem_filter.mp hr
        refine ⟨⟨r, hr'.1, by simpa using hr'.2, hk⟩, rfl⟩
      · rintro ⟨⟨r, hr, hc, hk⟩, rfl⟩
        exact ⟨⟨r, List.mem_filter.mpr ⟨hr, by simpa using hc⟩, hk⟩, rfl⟩
  · decide
  · unfold media_ds_pais
    rw [if_neg (by decide : ¬ df_ds exampleDf = [])]
    have hds : df_ds exampleDf = [rec1, rec2] := by decide
    rw [hds]
    norm_num [groupby, meanUsd, mean, rec1, rec2,
      List.insertionSort, List.orderedInsert]

/-- C10: every group-by pipeline keyed on categorical columns (treemap,
sunburst, heatmap, line, animated map) produces only groups keyed by
values actually present (non-null) in the grouped rows, and each group's
aggregate ranges over exactly the rows whose key columns equal those
non-null values — so a row with a missing (NaN) value in a grouping-key
column contributes to no group, and no missing-key bucket exists. -/
theorem C10_groupby_pipelines_drop_missing_keys :
    ∀ (df : List Record) (hasR : Bool) (cargo_sel : String),
      (∀ (p c : String) (v : ℚ), ((p, c), v) ∈ df_treemap hasR df →
        (∃ r ∈ df, countryLabel hasR r = some p ∧ r.cargo = some c) ∧
          v = meanUsd (df.filter (fun r =>
            decide (countryLabel hasR r = some p ∧ r.cargo = some c)))) ∧
      (∀ (s c : String) (n : ℕ), ((s, c), n) ∈ df_sun df →
        (∃ r ∈ df, r.senioridade = some s ∧ r.contrato = some c) ∧
          n = (df.filter (fun r =>
            decide (r.senioridade = some s ∧ r.contrato = some c))).length) ∧
      (∀ (s c : String) (v : ℚ), ((s, c), v) ∈ heat_means df →
        (∃ r ∈ df, r.senioridade = some s ∧ r.contrato = some c) ∧
          v = meanUsd (df.filter (fun r =>
            decide (r.senioridade = some s ∧ r.contrato = some c)))) ∧
      (∀ (a : ℤ) (c : String) (m : ℚ), ((a, c), m) ∈ df_linha df →
        c ∈ top5_cargos df ∧
        (∃ r ∈ df, r.ano = some a ∧ r.cargo = some c) ∧
          m = medianUsd ((df.filter
              (fun r => optMem r.cargo (top5_cargos df))).filter
            (fun r => decide (r.ano = some a ∧ r.cargo = some c)))) ∧
      (∀ (a : ℤ) (c : String) (v : ℚ), ((a, c), v) ∈ df_anim cargo_sel df →
        (∃ r ∈ df, r.cargo = some cargo_sel ∧ r.ano = some a ∧
          r.residencia_iso3 = some c) ∧
          v = meanUsd ((df.filter (fun r => r.cargo = some cargo_sel)).filter
            (fun r => decide (r.ano = some a ∧
              r.residencia_iso3 = some c)))) := by
  intro df hasR cargo_sel
  have hscfilter : ∀ s c : String,
      df.filter (fun r => senContratoKey r = some (s, c)) =
        df.filter (fun r =>
          decide (r.senioridade = some s ∧ r.contrato = some c)) :=
    fun s c => List.filter_congr
      (fun r _ => decide_eq_decide.mpr (senContratoKey_eq_some r s c))
  refine ⟨?_, ?_, ?_, ?_, ?_⟩
  · intro p c v hv
    exact (mem_df_treemap hasR df p c v).mp hv
  · intro s c n hn
    obtain ⟨⟨r, hr, hk⟩, rfl⟩ :=
      (mem_groupby strPairLe senContratoKey List.length df (s, c) n).mp hn
    obtain ⟨h1, h2⟩ := (senContratoKey_eq_some r s c).mp hk
    exact ⟨⟨r, hr, h1, h2⟩, congrArg List.length (hscfilter s c)⟩
  · intro s c v hv
    obtain ⟨⟨r, hr, hk⟩, rfl⟩ :=
      (mem_groupby strPairLe senContratoKey meanUsd df (s, c) v).mp hv
    obtain ⟨h1, h2⟩ := (senContratoKey_eq_some r s c).mp hk
    exact ⟨⟨r, hr, h1, h2⟩, congrArg meanUsd (hscfilter s c)⟩
  · intro a c m hm
    obtain ⟨⟨r, hr, hk⟩, rfl⟩ :=
      (mem_groupby intStrPairLe anoCargoKey medianUsd _ (a, c) m).mp hm
    obtain ⟨ha, hc⟩ := (anoCargoKey_eq_some r a c).mp hk
    have hrf := List.mem_filter.mp hr
    refine ⟨?_, ⟨r, hrf.1, ha, hc⟩, ?_⟩
    · have hmem := hrf.2
      rw [hc] at hmem
      simpa [optMem] using hmem
    · exact congrArg medianUsd (List.filter_congr
        (fun r _ => decide_eq_decide.mpr (anoCargoKey_eq_some r a c)))
  · intro a c v hv
    unfold df_anim at hv
    rw [List.mem_insertionSort] at hv
    obtain ⟨⟨r, hr, hk⟩, rfl⟩ :=
      (mem_groupby intStrPairLe anoIso3Key meanUsd _ (a, c) v).mp hv
    obtain ⟨ha, hi⟩ := (anoIso3Key_eq_some r a c).mp hk
    have hrf := List.mem_filter.mp hr
    refine ⟨⟨r, hrf.1, by simpa using hrf.2, ha, hi⟩, ?_⟩
    exact congrArg meanUsd (List.filter_congr
      (fun r _ => decide_eq_decide.mpr (anoIso3Key_eq_some r a c)))

end SalaryDashboard
